import Mathlib

/-!
Shallow embedding of the obd2 crate (rsammelson/obd2) for checking its
natural-language specification.

The embedding covers:
* the ELM327 framer (`src/device/elm327.rs`): `get_until`, `get_line`,
  `get_response`, `send_serial_str`;
* the command dispatcher (`src/interface.rs`): `parse_command`,
  `parse_command_multiline`, `command`, `obd_command`, `obd_mode_command`;
* the typed decoders (`src/commands/types.rs`, `src/commands/implementation.rs`):
  `Dtc` (`From<u16>` and `Display`), `DtcsInfo`, and the mode-only DTC list
  decoder.

Modelling conventions:
* Bytes are `Nat`s; values produced by the hex parser are `< 256` by
  construction, mirroring Rust's `u8`.
* The transport is modelled by the list of bytes that will ever arrive before
  the 5-second deadline: the receive queue. Reaching the end of the queue
  models the read timeout (the Rust `while start.elapsed() < TIMEOUT` loop
  spinning on an idle transport until the deadline).
* Rust panics (`todo!()` and `unreachable!()` on inputs the surrounding code
  makes impossible) are modelled by the `RunResult.panic` constructor; panic
  messages are abstracted away.
* Rust `String`s are modelled as `List Char` (the `.data` of a Lean string);
  error message strings are kept, but format interpolation of runtime values
  into messages is dropped.
-/

namespace ObdTwo

/-- One step result of the framer: translated byte pushed into the buffer.
Models the byte translation in `Elm327::get_until` together with
`Elm327::get_byte` (`src/device/elm327.rs`): a NUL byte is treated as no byte
available; a carriage return (13) is translated to a newline (10); a bare
newline is dropped; every other byte is kept. The loop accumulates into `buf`
and stops when the translated byte equals `endByte`; exhausting the queue
models the timeout. On timeout with a non-empty accumulation the Rust code
pops the last byte `f` (`buf.pop()`), pushes the remaining accumulated bytes
back to the front of the queue in their original order, and finally pushes
`f` to the front (`self.buffer.push_front(f)` runs last), so the resulting
queue starts with `f`. The empty-line retry (`allow_empty` false and an empty
chunk) re-enters the loop on the remaining queue with a fresh buffer, which is
the `get_untilGo endByte allowEmpty rest []` call. -/
def get_untilGo (endByte : Nat) (allowEmpty : Bool) : List Nat → List Nat → Option (List Nat) × List Nat
  | [], buf =>
    match buf.getLast? with
    | some f => (none, f :: buf.dropLast)
    | none => (none, [])
  | b :: rest, buf =>
    if b = 0 then
      get_untilGo endByte allowEmpty rest buf
    else if b = 10 then
      get_untilGo endByte allowEmpty rest buf
    else
      let c := if b = 13 then 10 else b
      if c = endByte then
        (if allowEmpty || !buf.isEmpty then (some buf, rest)
         else get_untilGo endByte allowEmpty rest [])
      else get_untilGo endByte allowEmpty rest (buf ++ [c])

/-- Models `Elm327::get_until`: returns the chunk read (without the terminator,
`None` on timeout) together with the state of the receive queue afterwards. -/
def get_until (endByte : Nat) (allowEmpty : Bool) (queue : List Nat) :
    Option (List Nat) × List Nat :=
  get_untilGo endByte allowEmpty queue []

/-- Models `Elm327::get_line`: `get_until(newline, allow_empty = false)`. -/
def get_line (queue : List Nat) : Option (List Nat) × List Nat :=
  get_until 10 false queue

/-- Models `Elm327::get_response`: `get_until(prompt, allow_empty = true)`,
the prompt byte being `b'>'` = 62. -/
def get_response (queue : List Nat) : Option (List Nat) × List Nat :=
  get_until 62 true queue

/-- Device-layer error (`src/device/mod.rs` `Error`); only the
`Communication` variant matters for the embedded operations. -/
inductive DeviceError where
  | Communication : String → DeviceError
  | Transport : DeviceError
deriving DecidableEq

/-- Models `Elm327::send_serial_str`: after writing the command and CRLF, the
first line read back must equal the sent bytes exactly, otherwise a
communication error is returned. The queue argument holds the bytes the
adapter sends back. -/
def send_serial_str (data : List Nat) (queue : List Nat) :
    Except DeviceError Unit × List Nat :=
  let r := get_line queue
  match r.1 with
  | some line =>
    if line = data then (Except.ok (), r.2)
    else (Except.error (DeviceError.Communication "send_serial_str: echo mismatch"), r.2)
  | none => (Except.error (DeviceError.Communication "send_serial_str: echo mismatch"), r.2)

/-! ### String utilities modelling the Rust standard library -/

/-- A Rust string, modelled as its list of characters. -/
abbrev Str := List Char

/-- Models `str::split(c)`: the pieces between occurrences of `c`
(empty pieces included, as in Rust). -/
def splitChar (c : Char) : Str → List Str
  | [] => [[]]
  | x :: xs =>
    let r := splitChar c xs
    if x = c then [] :: r
    else
      match r with
      | h :: t => (x :: h) :: t
      | [] => [[x]]

/-- Models `str::split_once(c)`: the parts before and after the first
occurrence of `c`, or `none` when `c` does not occur. -/
def splitOnce (c : Char) : Str → Option (Str × Str)
  | [] => none
  | x :: xs =>
    if x = c then some ([], xs)
    else (splitOnce c xs).map (fun p => (x :: p.1, p.2))

/-- Helper for `splitWs`: `acc` is the current token, reversed. -/
def splitWsGo : List Char → Str → List Str
  | acc, [] => if acc.isEmpty then [] else [acc.reverse]
  | acc, c :: cs =>
    if c.isWhitespace then
      if acc.isEmpty then splitWsGo [] cs else acc.reverse :: splitWsGo [] cs
    else splitWsGo (c :: acc) cs

/-- Models `str::split_whitespace`: maximal runs of non-whitespace characters. -/
def splitWs (s : Str) : List Str := splitWsGo [] s

/-- Whether `pat` is an initial segment of `hay`. -/
def startsWithL : Str → Str → Bool
  | [], _ => true
  | _ :: _, [] => false
  | c :: cs, h :: hs => c = h && startsWithL cs hs

/-- Models `str::contains(pat)` for a literal pattern: substring search. -/
def containsL (hay pat : Str) : Bool :=
  match hay with
  | [] => pat.isEmpty
  | _ :: t => startsWithL pat hay || containsL t pat

/-- Value of one hexadecimal digit, or `none`. -/
def hexDigitVal (c : Char) : Option Nat :=
  if '0' ≤ c ∧ c ≤ '9' then some (c.toNat - 48)
  else if 'a' ≤ c ∧ c ≤ 'f' then some (c.toNat - 87)
  else if 'A' ≤ c ∧ c ≤ 'F' then some (c.toNat - 55)
  else none

/-- Accumulate hexadecimal digits left to right. -/
def hexFold : List Char → Option Nat → Option Nat
  | [], acc => acc
  | c :: cs, acc =>
    hexFold cs (acc.bind (fun a => (hexDigitVal c).map (fun d => a * 16 + d)))

/-- Models `u8::from_str_radix(s, 16)`: an optional leading `+`, then a
non-empty string of hex digits, with the value bounded by `u8::MAX`
(an overflow is an error). A leading `-` is rejected for unsigned types. -/
def u8FromStrRadix16 (s : Str) : Option Nat :=
  let ds := match s with
    | '+' :: rest => rest
    | l => l
  if ds.isEmpty then none
  else
    match hexFold ds (some 0) with
    | some v => if v ≤ 255 then some v else none
    | none => none

/-! ### Command dispatcher (`src/interface.rs`) -/

/-- Models the crate-level `Error` enum (`src/error.rs`). -/
inductive Error where
  | Device : DeviceError → Error
  | IncorrectResponseLength : String → Nat → Nat → Error
  | Other : String → Error
deriving DecidableEq

/-- Result of running a Rust function that may also panic (`todo!()` /
`unreachable!()`); the panic message is abstracted away. -/
inductive RunResult (α : Type) where
  | ok : α → RunResult α
  | err : Error → RunResult α
  | panic : RunResult α
deriving DecidableEq

/-- Models `Obd2::parse_command`: split the reply on newlines, tokenize each
line on single spaces dropping empty tokens, drop lines with no tokens; an
empty list of responses is an error. -/
def parse_command (response : Str) : Except Error (List (List Str)) :=
  let result := (splitChar '\n' response).filterMap (fun l =>
    let res := (splitChar ' ' l).filter (fun s => !s.isEmpty)
    if !res.isEmpty then some res else none)
  if !result.isEmpty then Except.ok result
  else Except.error (Error.Other "parse_command: found no responses")

/-- Helper for `parse_command_multiline`: consume the `(index, data)` pairs
left to right, requiring each parsed hex index to equal the expected running
index (mod 16); a parse failure or mismatch is the `todo!()` panic in the
source. -/
def parseMultilineGo (nIdx : Nat) : List (Str × Str) → RunResult (List Str)
  | [] => RunResult.ok []
  | (idx, data) :: rest =>
    if u8FromStrRadix16 idx = some nIdx then
      match parseMultilineGo ((nIdx + 1) % 16) rest with
      | RunResult.ok tail => RunResult.ok (splitWs data ++ tail)
      | RunResult.err e => RunResult.err e
      | RunResult.panic => RunResult.panic
    else RunResult.panic

/-- Models `Obd2::parse_command_multiline`: split on newlines, keep the lines
that contain a `:` (as `(index, rest)` pairs), then concatenate the
whitespace-separated tokens of each line in order, checking the running line
index. -/
def parse_command_multiline (response : Str) : RunResult (List Str) :=
  parseMultilineGo 0 ((splitChar '\n' response).filterMap (fun l => splitOnce ':' l))

/-- Parse every token of one response as a two-hex-digit byte
(the inner `collect` in `Obd2::command`). -/
def parseHexLine (l : List Str) : Except Error (List Nat) :=
  l.mapM (fun s =>
    match u8FromStrRadix16 s with
    | some v => Except.ok v
    | none => Except.error (Error.Other "invalid data received"))

/-- Models `Obd2::command`. The argument is the adapter reply as returned by
`Obd2BaseDevice::cmd` (`None` models a timed-out or non-UTF-8 reply). A reply
containing `"0:"` is parsed as one multi-line response; otherwise each
non-empty line is one ECU response. Every token is then parsed as a hex
byte. -/
def command (response? : Option Str) : RunResult (List (List Nat)) :=
  match response? with
  | none => RunResult.err (Error.Other "no response to command")
  | some response =>
    let dataR : RunResult (List (List Str)) :=
      if containsL response ['0', ':'] then
        match parse_command_multiline response with
        | RunResult.ok v => RunResult.ok [v]
        | RunResult.err e => RunResult.err e
        | RunResult.panic => RunResult.panic
      else
        match parse_command response with
        | Except.ok v => RunResult.ok v
        | Except.error e => RunResult.err e
    match dataR with
    | RunResult.ok data =>
      match data.mapM parseHexLine with
      | Except.ok r => RunResult.ok r
      | Except.error e => RunResult.err e
    | RunResult.err e => RunResult.err e
    | RunResult.panic => RunResult.panic

/-- Models `Obd2::obd_command` (`Obd2Device` implementation): run the command,
then for every response require the first byte to be `0x40 | mode` and the
second byte to be the PID — a mismatch hits `todo!()`, i.e. panics — and
strip the two envelope bytes (`split_at(2).1`). -/
def obd_command (mode pid : Nat) (response? : Option Str) : RunResult (List (List Nat)) :=
  match command response? with
  | RunResult.ok result =>
    if result.all (fun r => r.head? == some (64 ||| mode) && r.get? 1 == some pid) then
      RunResult.ok (result.map (fun l => l.drop 2))
    else RunResult.panic
  | RunResult.err e => RunResult.err e
  | RunResult.panic => RunResult.panic

/-- Models `Obd2::obd_mode_command`: like `obd_command` but with no PID; only
the first byte (`0x40 | mode`) is checked (mismatch hits `todo!()`) and
stripped (`split_at(1).1`). -/
def obd_mode_command (mode : Nat) (response? : Option Str) : RunResult (List (List Nat)) :=
  match command response? with
  | RunResult.ok result =>
    if result.all (fun r => r.head? == some (64 ||| mode)) then
      RunResult.ok (result.map (fun l => l.drop 1))
    else RunResult.panic
  | RunResult.err e => RunResult.err e
  | RunResult.panic => RunResult.panic

/-! ### Typed decoders (`src/commands/types.rs`, `src/commands/implementation.rs`) -/

/-- Models the `Dtc` enum: a diagnostic trouble code, one of four categories
with a numeric code. -/
inductive Dtc where
  | Powertrain : Nat → Dtc
  | Chassis : Nat → Dtc
  | Body : Nat → Dtc
  | Network : Nat → Dtc
deriving DecidableEq

/-- Models `impl From<u16> for Dtc`: the numeric code is `val & 0x3f` and the
category is selected by `val >> 14`. The `% 65536` embeds the `u16` input
type; for such values the shift is at most 3, so the `unreachable!()` arm of
the source never fires (the final branch here covers exactly the value 3 for
16-bit inputs). -/
def dtcOfU16 (val : Nat) : Dtc :=
  let v := val % 65536
  let n := v &&& 63
  if v >>> 14 = 0 then Dtc.Powertrain n
  else if v >>> 14 = 1 then Dtc.Chassis n
  else if v >>> 14 = 2 then Dtc.Body n
  else Dtc.Network n

/-- Uppercase hexadecimal digit for a value below 16. -/
def hexDigitUpper (n : Nat) : Char :=
  if n < 10 then Char.ofNat (48 + n) else Char.ofNat (55 + n)

/-- Digits of `n` in uppercase hexadecimal, most significant first; the first
argument is fuel (any value at least `n` is enough, since `n / 16 < n` for
positive `n`). -/
def toHexUpperGo : Nat → Nat → List Char
  | 0, _ => []
  | fuel + 1, n =>
    if n = 0 then []
    else toHexUpperGo fuel (n / 16) ++ [hexDigitUpper (n % 16)]

/-- Uppercase hexadecimal rendering of `n`, as Rust's `{:X}`. -/
def toHexUpper (n : Nat) : List Char :=
  if n = 0 then ['0'] else toHexUpperGo n n

/-- Rust's `{:03X}` format: uppercase hex, left-padded with zeros to width 3. -/
def fmt03X (n : Nat) : List Char :=
  let ds := toHexUpper n
  List.replicate (3 - ds.length) '0' ++ ds

/-- Models `impl fmt::Display for Dtc`: the category letter followed by the
code formatted `{:03X}`. -/
def dtcDisplay : Dtc → List Char
  | Dtc.Powertrain n => 'P' :: fmt03X n
  | Dtc.Chassis n => 'C' :: fmt03X n
  | Dtc.Body n => 'B' :: fmt03X n
  | Dtc.Network n => 'U' :: fmt03X n

/-- Models the `DtcsInfo` struct: per-ECU DTC metadata. -/
structure DtcsInfo where
  malfunction_indicator_light : Bool
  dtc_count : Nat
  common_test_availability : Nat
  is_compression_engine : Bool
  specific_test_availability : Nat
deriving DecidableEq

/-- Models the per-response body of `impl GetObd2Values for DtcsInfo`
(`get_dtc_info`): a response must have exactly 4 bytes; the fields are bit
slices of those bytes, with `specific_test_availability` built as
`(byte3 << 8) | byte2`. -/
def getDtcsInfoOne (response : List Nat) : Except Error DtcsInfo :=
  match response with
  | [b0, b1, b2, b3] =>
    Except.ok
      { malfunction_indicator_light := (b0 &&& 128) = 128
        dtc_count := b0 &&& 127
        common_test_availability := ((b1 &&& 240) >>> 1) ||| (b1 &&& 7)
        is_compression_engine := (b1 &&& 8) = 8
        specific_test_availability := (b3 <<< 8) ||| b2 }
  | _ => Except.error (Error.Other "get_dtc_info: expected length 4")

/-- Models `impl GetObd2Values for DtcsInfo` over all ECU responses. -/
def getDtcsInfo (responses : List (List Nat)) : Except Error (List DtcsInfo) :=
  responses.mapM getDtcsInfoOne

/-- Category constructor selected by the top two bits of a byte in the
mode-only DTC list decoder; the numeric code is always 0 there. The source's
`unreachable!()` arm (shift value above 3, impossible for a `u8`) is mapped to
`Network 0` to keep the function total. -/
def categoryOf (c : Nat) : Dtc :=
  if c = 0 then Dtc.Powertrain 0
  else if c = 1 then Dtc.Chassis 0
  else if c = 2 then Dtc.Body 0
  else Dtc.Network 0

/-- The loop `for i in (1..response.len()).step_by(2)` of the mode-only DTC
list decoder: of the bytes after the leading one, every other byte starting
with the first is turned into a category via its top two bits. -/
def dtcStep : List Nat → List Dtc
  | [] => []
  | [b] => [categoryOf (b >>> 6)]
  | b :: _ :: rest => categoryOf (b >>> 6) :: dtcStep rest

/-- Models the per-response body of `impl GetObd2ValuesMode for Vec<Dtc>`
(`get_dtcs`): the first byte must be 0 and the total length odd (i.e. an even
number of remaining bytes), in which case the bytes at indices 1, 3, 5, …
give the categories; a first byte of 1–3 hits `todo!()`; a larger first byte
or an empty response is an error. -/
def getDtcsOfResponse (response : List Nat) : RunResult (List Dtc) :=
  match response.head? with
  | some 0 =>
    if response.length % 2 = 1 then RunResult.ok (dtcStep (response.drop 1))
    else RunResult.err (Error.Other "invalid response when getting DTCs")
  | some n =>
    if n ≤ 3 then RunResult.panic
    else RunResult.err (Error.Other "invalid response when getting DTCs")
  | none => RunResult.err (Error.Other "no response bytes when getting DTCs")

/-- Flatten a list of byte pairs. -/
def pairsFlat : List (Nat × Nat) → List Nat
  | [] => []
  | (a, b) :: ps => a :: b :: pairsFlat ps

end ObdTwo

namespace ObdTwo

/-! ### Claims about the dispatcher envelope checks and multi-line reassembly -/

/-- C1: the envelope bytes are validated and stripped, but on a mismatch the
code hits `todo!()`, i.e. panics, instead of returning a protocol error: with
mode 0x01 and PID 0x0C, the reply `"41 0C 1A F8"` passes validation and the
two envelope bytes are stripped, while `"41 0D 1A F8"` (wrong PID echo) makes
`obd_command` panic; likewise `obd_mode_command` with mode 0x03 strips the
first byte of `"43 01 02"` but panics on `"44 01 02"`. -/
theorem obd_command_envelope_todo :
    obd_command 1 12 (some ("41 0C 1A F8").data) = RunResult.ok [[26, 248]] ∧
    obd_command 1 12 (some ("41 0D 1A F8").data) = RunResult.panic ∧
    obd_mode_command 3 (some ("43 01 02").data) = RunResult.ok [[1, 2]] ∧
    obd_mode_command 3 (some ("44 01 02").data) = RunResult.panic := by
  exact ⟨by decide, by decide, by decide, by decide⟩

/-- C2: multi-line reassembly concatenates the payload tokens of lines with
indices 0, 1, 2, … in order, but a line whose index does not match the
expected next index — whether out of order or not valid hex — hits `todo!()`,
i.e. panics, instead of returning a protocol error. -/
theorem parse_command_multiline_todo :
    parse_command_multiline ("0: 41 0C\n1: 1A F8").data
      = RunResult.ok [['4', '1'], ['0', 'C'], ['1', 'A'], ['F', '8']] ∧
    parse_command_multiline ("0: 41 0C\n2: 1A F8").data = RunResult.panic ∧
    parse_command_multiline ("0: 41 0C\nZZ: 1A F8").data = RunResult.panic := by
  exact ⟨by decide, by decide, by decide⟩

/-! ### Claims about the framer -/

/-- C3: on a timed-out read, `get_until` does not restore the accumulated
bytes in their original order: the last accumulated byte is pushed to the
front of the queue after the others (the final `push_front(f)` in the
source), so accumulating 0x41 0x42 0x43 before the timeout leaves the queue
as 0x43 0x41 0x42, and a later completed read returns the reordered line. -/
theorem get_until_pushback_reorder :
    get_until 10 false [65, 66, 67] = (none, [67, 65, 66]) ∧
    ([67, 65, 66] : List Nat) ≠ [65, 66, 67] ∧
    (get_line ([67, 65, 66] ++ [13])).1 = some [67, 65, 66] := by decide

/-- Processing bytes that are not NUL, newline, or carriage return just
appends them to the accumulation buffer. -/
theorem get_untilGo_skip (tail : List Nat) :
    ∀ (cs buf : List Nat),
      (∀ x ∈ cs, x ≠ 0 ∧ x ≠ 10 ∧ x ≠ 13) →
      get_untilGo 10 false (cs ++ tail) buf = get_untilGo 10 false tail (buf ++ cs) := by
  intro cs
  induction cs with
  | nil => intro buf _; simp
  | cons c cs ih =>
    intro buf h
    obtain ⟨hc0, hc10, hc13⟩ := h c (by simp)
    have hrest : ∀ x ∈ cs, x ≠ 0 ∧ x ≠ 10 ∧ x ≠ 13 := fun x hx => h x (by simp [hx])
    have : (c :: cs) ++ tail = c :: (cs ++ tail) := rfl
    rw [this]
    simp only [get_untilGo, if_neg hc0, if_neg hc10, if_neg hc13]
    rw [ih (buf ++ [c]) hrest]
    congr 1
    simp

/-- The counterexample for C4 as stated: a line terminated by a bare LF does
not produce the same result as the same line terminated by CR — the bare
newline byte is dropped before it can match the terminator, so the read times
out and returns `none`. -/
theorem get_line_bare_lf_counterexample :
    (get_line [65, 66, 13]).1 = some [65, 66] ∧
    (get_line [65, 66, 10]).1 = none ∧
    (get_line [65, 66, 10]).1 ≠ (get_line [65, 66, 13]).1 := by decide

/-- C4 (amended): for a non-empty line of ordinary bytes, CR and CRLF
terminators yield the same logical line (the carriage return is normalized to
a newline and the following bare newline is dropped later), and a NUL byte is
treated as no byte available; but a line terminated by a bare LF alone is
never completed — the bare newline is dropped, so the read returns `none`
after the timeout. -/
theorem get_line_terminator_normalization (cs : List Nat) (hne : cs ≠ [])
    (hcs : ∀ x ∈ cs, x ≠ 0 ∧ x ≠ 10 ∧ x ≠ 13) :
    (get_line (cs ++ [13])).1 = some cs ∧
    (get_line (cs ++ [13, 10])).1 = some cs ∧
    (get_line ((0 :: cs) ++ [13])).1 = some cs ∧
    (get_line (cs ++ [10])).1 = none := by
  have hne' : cs.isEmpty = false := by
    cases cs with
    | nil => exact absurd rfl hne
    | cons a l => rfl
  refine ⟨?_, ?_, ?_, ?_⟩
  · show (get_untilGo 10 false (cs ++ [13]) []).1 = some cs
    rw [get_untilGo_skip [13] cs [] hcs]
    simp [get_untilGo, hne']
  · show (get_untilGo 10 false (cs ++ [13, 10]) []).1 = some cs
    rw [get_untilGo_skip [13, 10] cs [] hcs]
    simp [get_untilGo, hne']
  · show (get_untilGo 10 false ((0 :: cs) ++ [13]) []).1 = some cs
    have : (0 :: cs) ++ [13] = 0 :: (cs ++ [13]) := rfl
    rw [this]
    simp only [get_untilGo, if_pos rfl]
    rw [get_untilGo_skip [13] cs [] hcs]
    simp [get_untilGo, hne']
  · show (get_untilGo 10 false (cs ++ [10]) []).1 = none
    rw [get_untilGo_skip [10] cs [] hcs]
    have hb : ([] : List Nat) ++ cs = cs := by simp
    rw [hb]
    cases h : cs.getLast? <;> simp [get_untilGo, h]

/-- Witness for the amended C4 theorem at the concrete line "AB". -/
theorem get_line_terminator_normalization_witness :
    (get_line ([65, 66] ++ [13])).1 = some [65, 66] ∧
    (get_line ([65, 66] ++ [13, 10])).1 = some [65, 66] ∧
    (get_line ((0 :: [65, 66]) ++ [13])).1 = some [65, 66] ∧
    (get_line ([65, 66] ++ [10])).1 = none :=
  get_line_terminator_normalization [65, 66] (by decide) (by decide)

/-! ### Claims about the typed decoders -/

/-- The counterexample for C5 as stated: the conversion masks the code with
0x3f, so the encoded value 0x0301 renders as "P001", not "P301". -/
theorem dtc_display_counterexample :
    dtcDisplay (dtcOfU16 769) = ("P001").data ∧
    ("P001").data ≠ ("P301").data := by decide

/-- C5 (amended): the category of a converted 16-bit value is selected by its
top 2 bits, but the numeric code is only its bottom 6 bits (`val & 0x3f`), so
0x0301 renders as "P001" and 0x4301 renders as "C001". -/
theorem dtc_of_u16_amended (val : Nat) (h : val < 65536) :
    (dtcOfU16 val =
      (if val >>> 14 = 0 then Dtc.Powertrain (val &&& 63)
       else if val >>> 14 = 1 then Dtc.Chassis (val &&& 63)
       else if val >>> 14 = 2 then Dtc.Body (val &&& 63)
       else Dtc.Network (val &&& 63))) ∧
    dtcDisplay (dtcOfU16 769) = ("P001").data ∧
    dtcDisplay (dtcOfU16 17153) = ("C001").data := by
  refine ⟨?_, by decide, by decide⟩
  unfold dtcOfU16
  rw [Nat.mod_eq_of_lt h]

/-- Witness for the amended C5 theorem at the encoded value 0x4301. -/
theorem dtc_of_u16_amended_witness :
    17153 < 65536 ∧
    ((dtcOfU16 17153 =
      (if 17153 >>> 14 = 0 then Dtc.Powertrain (17153 &&& 63)
       else if 17153 >>> 14 = 1 then Dtc.Chassis (17153 &&& 63)
       else if 17153 >>> 14 = 2 then Dtc.Body (17153 &&& 63)
       else Dtc.Network (17153 &&& 63))) ∧
    dtcDisplay (dtcOfU16 769) = ("P001").data ∧
    dtcDisplay (dtcOfU16 17153) = ("C001").data) :=
  ⟨by decide, dtc_of_u16_amended 17153 (by decide)⟩

set_option maxRecDepth 10000 in
/-- For a byte, masking with 0x80 and comparing picks out bit 7. -/
theorem byte_and_128 : ∀ b < 256, (decide ((b &&& 128) = 128)) = b.testBit 7 := by decide

set_option maxRecDepth 10000 in
/-- For a byte, masking with 0x7f is reduction mod 128. -/
theorem byte_and_127 : ∀ b < 256, b &&& 127 = b % 128 := by decide

set_option maxRecDepth 10000 in
/-- For a byte, the shifted-high-nibble-or-low-3-bits combination equals the
arithmetic form (high nibble times 8 plus the low 3 bits). -/
theorem byte_common_tests : ∀ b < 256,
    (((b &&& 240) >>> 1) ||| (b &&& 7)) = b / 16 * 8 + b % 8 := by decide

set_option maxRecDepth 10000 in
/-- For a byte, masking with 0x08 and comparing picks out bit 3. -/
theorem byte_and_8 : ∀ b < 256, (decide ((b &&& 8) = 8)) = b.testBit 3 := by decide

/-- Shifting a value left by 8 and or-ing in a byte is the same as scaling by
256 and adding. -/
theorem shift8_lor_eq (a b : Nat) (hb : b < 256) : ((a <<< 8) ||| b) = a * 256 + b := by
  apply Nat.eq_of_testBit_eq
  intro j
  rw [Nat.testBit_lor, Nat.testBit_shiftLeft]
  have h256 : (256 : Nat) = 2 ^ 8 := by norm_num
  rw [h256] at hb
  rw [h256, Nat.mul_comm a (2 ^ 8), Nat.testBit_mul_pow_two_add a hb]
  by_cases hj : j < 8
  · simp [hj, Nat.not_le_of_lt hj]
  · have h8 : 8 ≤ j := Nat.le_of_not_lt hj
    simp [hj, h8,
      Nat.testBit_lt_two_pow (Nat.lt_of_lt_of_le hb (Nat.pow_le_pow_right (by omega) h8))]

/-- The counterexample for C6 as stated: with payload bytes 0x00 0x00 0x12
0x34, the decoder assembles `specific_test_availability` as 0x3412 (byte 3 as
the high byte), not the big-endian 0x1234 the claim requires. -/
theorem get_dtc_info_endianness_counterexample :
    getDtcsInfoOne [0, 0, 18, 52] = Except.ok ⟨false, 0, 0, false, 13330⟩ ∧
    (13330 : Nat) ≠ 18 * 256 + 52 := ⟨rfl, by decide⟩

/-- C6 (amended): a 4-byte response decodes with the malfunction-indicator
flag from bit 7 of byte 0, the DTC count from bits 0-6 of byte 0, the common
test availability from byte 1's shifted high nibble combined with its low 3
bits, the compression-engine flag from bit 3 of byte 1, and the specific test
availability from bytes 2-3 interpreted with byte 3 as the high byte
(little-endian), not big-endian; any other response length is an error. -/
theorem get_dtc_info_decode (b0 b1 b2 b3 : Nat) (r : List Nat)
    (h0 : b0 < 256) (h1 : b1 < 256) (h2 : b2 < 256) (h3 : b3 < 256)
    (hr : r.length ≠ 4) :
    (getDtcsInfoOne [b0, b1, b2, b3] =
      Except.ok
        { malfunction_indicator_light := b0.testBit 7
          dtc_count := b0 % 128
          common_test_availability := b1 / 16 * 8 + b1 % 8
          is_compression_engine := b1.testBit 3
          specific_test_availability := b3 * 256 + b2 }) ∧
    getDtcsInfoOne r = Except.error (Error.Other "get_dtc_info: expected length 4") := by
  constructor
  · simp only [getDtcsInfoOne, Except.ok.injEq, DtcsInfo.mk.injEq]
    exact ⟨byte_and_128 b0 h0, byte_and_127 b0 h0, byte_common_tests b1 h1,
      byte_and_8 b1 h1, shift8_lor_eq b3 b2 h2⟩
  · rcases r with _ | ⟨x0, _ | ⟨x1, _ | ⟨x2, _ | ⟨x3, _ | ⟨x4, tl⟩⟩⟩⟩⟩
    · rfl
    · rfl
    · rfl
    · rfl
    · exact absurd rfl hr
    · rfl

/-- Witness for the amended C6 theorem at the payload 0x81 0xFF 0x12 0x34 and
the short payload 0x01 0x02 0x03. -/
theorem get_dtc_info_decode_witness :
    (getDtcsInfoOne [129, 255, 18, 52] =
      Except.ok
        { malfunction_indicator_light := Nat.testBit 129 7
          dtc_count := 129 % 128
          common_test_availability := 255 / 16 * 8 + 255 % 8
          is_compression_engine := Nat.testBit 255 3
          specific_test_availability := 52 * 256 + 18 }) ∧
    getDtcsInfoOne [1, 2, 3] = Except.error (Error.Other "get_dtc_info: expected length 4") :=
  get_dtc_info_decode 129 255 18 52 [1, 2, 3] (by decide) (by decide) (by decide) (by decide)
    (by decide)

/-- Flattening a list of pairs doubles the length. -/
theorem pairsFlat_length (ps : List (Nat × Nat)) : (pairsFlat ps).length = 2 * ps.length := by
  induction ps with
  | nil => rfl
  | cons p ps ih =>
    obtain ⟨a, b⟩ := p
    simp [pairsFlat, ih]
    omega

/-- The decoding loop turns each byte pair into the category given by the top
two bits of the pair's first byte. -/
theorem dtcStep_pairsFlat (ps : List (Nat × Nat)) :
    dtcStep (pairsFlat ps) = ps.map (fun p => categoryOf (p.1 >>> 6)) := by
  induction ps with
  | nil => rfl
  | cons p ps ih =>
    obtain ⟨a, b⟩ := p
    simp [pairsFlat, dtcStep, ih]

/-- The counterexample for C7 as stated: for the response 0x00 0x40 0x80, the
single remaining pair is (0x40, 0x80); the claim selects the category from
the second byte's top bits (0x80 >> 6 = 2, Body), but the decoder uses the
first byte (0x40 >> 6 = 1) and yields Chassis. -/
theorem get_dtcs_pair_byte_counterexample :
    getDtcsOfResponse [0, 64, 128] = RunResult.ok [Dtc.Chassis 0] ∧
    Dtc.Chassis 0 ≠ Dtc.Body 0 := by decide

/-- C7 (amended): a mode-only DTC-list response with first byte 0 and an even
number of remaining bytes decodes to one Dtc per remaining byte pair, the
category selected by the top 2 bits of the pair's FIRST byte and the numeric
code 0 for every entry; an odd number of remaining bytes is an error. -/
theorem get_dtcs_decode (ps : List (Nat × Nat)) (rest : List Nat)
    (hodd : rest.length % 2 = 1) :
    getDtcsOfResponse (0 :: pairsFlat ps)
      = RunResult.ok (ps.map (fun p => categoryOf (p.1 >>> 6))) ∧
    getDtcsOfResponse (0 :: rest)
      = RunResult.err (Error.Other "invalid response when getting DTCs") := by
  constructor
  · simp [getDtcsOfResponse, dtcStep_pairsFlat]
    rw [pairsFlat_length]
    omega
  · simp [getDtcsOfResponse]
    omega

/-- Witness for the amended C7 theorem at the response 0x00 0x40 0x80 and the
invalid response 0x00 0x01. -/
theorem get_dtcs_decode_witness :
    getDtcsOfResponse (0 :: pairsFlat [(64, 128)])
      = RunResult.ok ([(64, 128)].map (fun p => categoryOf (p.1 >>> 6))) ∧
    getDtcsOfResponse (0 :: [1])
      = RunResult.err (Error.Other "invalid response when getting DTCs") :=
  get_dtcs_decode [(64, 128)] [1] (by decide)

/-! ### Claims about non-emptiness of successful results (C8) -/

/-- A successful `parse_command` never returns an empty list of responses. -/
theorem parse_command_ok_ne_nil (resp : Str) (lists : List (List Str))
    (h : parse_command resp = Except.ok lists) : lists ≠ [] := by
  unfold parse_command at h
  dsimp only at h
  split at h
  next hcond =>
    injection h with h1
    rw [← h1]
    intro hnil
    rw [hnil] at hcond
    simp at hcond
  next hcond => cases h

/-- Mapping a fallible parser over a non-empty list either fails or returns a
non-empty list. -/
theorem mapM_ok_ne_nil (f : List Str → Except Error (List Nat)) (l : List (List Str))
    (r : List (List Nat)) (hl : l ≠ []) (h : l.mapM f = Except.ok r) : r ≠ [] := by
  cases l with
  | nil => exact absurd rfl hl
  | cons a as =>
    rw [List.mapM_cons] at h
    cases hfa : f a with
    | error e => rw [hfa] at h; exact absurd h (by simp [Bind.bind, Except.bind])
    | ok b =>
      rw [hfa] at h
      cases hmas : as.mapM f with
      | error e =>
        rw [hmas] at h
        exact absurd h (by simp [Bind.bind, Except.bind])
      | ok bs =>
        rw [hmas] at h
        simp [Bind.bind, Except.bind, pure, Except.pure] at h
        rw [← h]
        exact List.cons_ne_nil b bs

/-- A successful `command` never returns an empty response set. -/
theorem command_ok_ne_nil (r? : Option Str) (d : List (List Nat))
    (h : command r? = RunResult.ok d) : d ≠ [] := by
  cases r? with
  | none => simp [command] at h
  | some response =>
    simp only [command] at h
    by_cases hml : containsL response ['0', ':'] = true
    · rw [if_pos hml] at h
      cases hpm : parse_command_multiline response with
      | ok v =>
        rw [hpm] at h
        dsimp only at h
        cases hmap : List.mapM parseHexLine [v] with
        | ok r =>
          rw [hmap] at h
          cases h
          exact mapM_ok_ne_nil parseHexLine [v] d (by simp) hmap
        | error e => rw [hmap] at h; cases h
      | err e => rw [hpm] at h; dsimp only at h; cases h
      | panic => rw [hpm] at h; dsimp only at h; cases h
    · rw [if_neg hml] at h
      cases hpc : parse_command response with
      | ok lists =>
        rw [hpc] at h
        dsimp only at h
        cases hmap : List.mapM parseHexLine lists with
        | ok r =>
          rw [hmap] at h
          cases h
          exact mapM_ok_ne_nil parseHexLine lists d
            (parse_command_ok_ne_nil response lists hpc) hmap
        | error e => rw [hmap] at h; cases h
      | error e => rw [hpc] at h; dsimp only at h; cases h

/-- A successful `obd_command` never returns an empty response set. -/
theorem obd_command_ok_ne_nil (m p : Nat) (r? : Option Str) (d : List (List Nat))
    (h : obd_command m p r? = RunResult.ok d) : d ≠ [] := by
  unfold obd_command at h
  cases hc : command r? with
  | ok result =>
    rw [hc] at h
    dsimp only at h
    split at h
    next hall =>
      cases h
      intro hnil
      exact command_ok_ne_nil r? result hc (List.map_eq_nil_iff.mp hnil)
    next hall => cases h
  | err e => rw [hc] at h; dsimp only at h; cases h
  | panic => rw [hc] at h; dsimp only at h; cases h

/-- A successful `obd_mode_command` never returns an empty response set. -/
theorem obd_mode_command_ok_ne_nil (m : Nat) (r? : Option Str) (d : List (List Nat))
    (h : obd_mode_command m r? = RunResult.ok d) : d ≠ [] := by
  unfold obd_mode_command at h
  cases hc : command r? with
  | ok result =>
    rw [hc] at h
    dsimp only at h
    split at h
    next hall =>
      cases h
      intro hnil
      exact command_ok_ne_nil r? result hc (List.map_eq_nil_iff.mp hnil)
    next hall => cases h
  | err e => rw [hc] at h; dsimp only at h; cases h
  | panic => rw [hc] at h; dsimp only at h; cases h

/-- C8: whenever a command completes successfully — `parse_command`,
`command`, `obd_command` or `obd_mode_command` returns an ok result — the
returned ECU response set is non-empty; a reply parsing to zero responses
yields an error, never an empty list. -/
theorem command_success_nonempty (r? : Option Str) (resp : Str) (m p : Nat)
    (d : List (List Nat)) (lists : List (List Str)) :
    (parse_command resp = Except.ok lists → lists ≠ []) ∧
    (command r? = RunResult.ok d → d ≠ []) ∧
    (obd_command m p r? = RunResult.ok d → d ≠ []) ∧
    (obd_mode_command m r? = RunResult.ok d → d ≠ []) :=
  ⟨parse_command_ok_ne_nil resp lists, command_ok_ne_nil r? d,
   obd_command_ok_ne_nil m p r? d, obd_mode_command_ok_ne_nil m r? d⟩

/-- Witness for C8 at the concrete reply "41 0C 1A F8". -/
theorem command_success_nonempty_witness :
    ([[26, 248]] : List (List Nat)) ≠ [] ∧ ([[65, 12, 26, 248]] : List (List Nat)) ≠ [] :=
  ⟨(command_success_nonempty (some ("41 0C 1A F8").data) [] 1 12 [[26, 248]] []).2.2.1
      (by decide),
   (command_success_nonempty (some ("41 0C 1A F8").data) [] 1 12 [[65, 12, 26, 248]] []).2.1
      (by decide)⟩

/-! ### Claims about echo verification (C9) -/

/-- C9: `send_serial_str` succeeds exactly when the first line read back
equals the sent bytes; a differing echo — or no echo line at all before the
timeout — yields a communication error. -/
theorem send_serial_str_echo (data queue : List Nat) :
    ((get_line queue).1 = some data → (send_serial_str data queue).1 = Except.ok ()) ∧
    ((get_line queue).1 ≠ some data →
      (send_serial_str data queue).1
        = Except.error (DeviceError.Communication "send_serial_str: echo mismatch")) := by
  constructor
  · intro h
    simp [send_serial_str, h]
  · intro h
    cases hl : (get_line queue).1 with
    | none => simp [send_serial_str, hl]
    | some line =>
      have hne : line ≠ data := fun e => h (by rw [hl, e])
      simp [send_serial_str, hl, hne]

/-- Witness for C9: the echoed line "AT" matches the sent bytes, a corrupted
echo does not. -/
theorem send_serial_str_echo_witness :
    (send_serial_str [65, 84] [65, 84, 13]).1 = Except.ok () ∧
    (send_serial_str [65, 84] [65, 85, 13]).1
      = Except.error (DeviceError.Communication "send_serial_str: echo mismatch") :=
  ⟨(send_serial_str_echo [65, 84] [65, 84, 13]).1 (by decide),
   (send_serial_str_echo [65, 84] [65, 85, 13]).2 (by decide)⟩

/-! ### Claims about the purity of returned chunks (C10) -/

/-- Any chunk successfully returned by the read loop contains no terminator
byte, no carriage return and no NUL, provided the accumulation buffer started
that way. -/
theorem get_untilGo_clean (e : Nat) (a : Bool) :
    ∀ (q buf res rest : List Nat),
      (∀ x ∈ buf, x ≠ e ∧ x ≠ 13 ∧ x ≠ 0) →
      get_untilGo e a q buf = (some res, rest) →
      ∀ x ∈ res, x ≠ e ∧ x ≠ 13 ∧ x ≠ 0 := by
  intro q
  induction q with
  | nil =>
    intro buf res rest hbuf heq
    exfalso
    cases h : buf.getLast? <;> simp [get_untilGo, h] at heq
  | cons b q ih =>
    intro buf res rest hbuf heq
    simp only [get_untilGo] at heq
    by_cases hb0 : b = 0
    · rw [if_pos hb0] at heq
      exact ih buf res rest hbuf heq
    · rw [if_neg hb0] at heq
      by_cases hb10 : b = 10
      · rw [if_pos hb10] at heq
        exact ih buf res rest hbuf heq
      · rw [if_neg hb10] at heq
        have hc13 : (if b = 13 then 10 else b) ≠ 13 := by
          by_cases h13 : b = 13 <;> simp [h13]
        have hc0 : (if b = 13 then 10 else b) ≠ 0 := by
          by_cases h13 : b = 13 <;> simp [h13, hb0]
        by_cases hce : (if b = 13 then 10 else b) = e
        · rw [if_pos hce] at heq
          by_cases hae : (a || !buf.isEmpty) = true
          · rw [if_pos hae] at heq
            have hres : res = buf := by
              injection heq with h1 h2
              exact (Option.some.inj h1).symm
            rw [hres]
            exact hbuf
          · rw [if_neg hae] at heq
            exact ih [] res rest (by simp) heq
        · rw [if_neg hce] at heq
          apply ih (buf ++ [if b = 13 then 10 else b]) res rest _ heq
          intro x hx
          rcases List.mem_append.mp hx with hxl | hxr
          · exact hbuf x hxl
          · have hx' : x = (if b = 13 then 10 else b) := by simpa using hxr
            rw [hx']
            exact ⟨hce, hc13, hc0⟩

/-- C10: whenever `get_until` returns a chunk, the chunk contains no
occurrence of the terminator byte, no carriage return (0x0D) and no NUL
(0x00); in particular `get_response` output never contains the prompt byte
and `get_line` output never contains a newline. -/
theorem get_until_chunk_clean (e : Nat) (a : Bool) (q res rest : List Nat) :
    (get_until e a q = (some res, rest) → e ∉ res ∧ 13 ∉ res ∧ 0 ∉ res) ∧
    (get_response q = (some res, rest) → 62 ∉ res) ∧
    (get_line q = (some res, rest) → 10 ∉ res) := by
  refine ⟨fun h => ?_, fun h => ?_, fun h => ?_⟩
  · have hall := get_untilGo_clean e a q [] res rest (by simp) h
    exact ⟨fun hm => (hall e hm).1 rfl, fun hm => (hall 13 hm).2.1 rfl,
      fun hm => (hall 0 hm).2.2 rfl⟩
  · have hall := get_untilGo_clean 62 true q [] res rest (by simp) h
    exact fun hm => (hall 62 hm).1 rfl
  · have hall := get_untilGo_clean 10 false q [] res rest (by simp) h
    exact fun hm => (hall 10 hm).1 rfl

/-- Witness for C10 at a concrete response containing a CR that is normalized
away before the prompt byte arrives. -/
theorem get_until_chunk_clean_witness :
    62 ∉ ([65, 10, 66] : List Nat) ∧ 13 ∉ ([65, 10, 66] : List Nat) ∧
      0 ∉ ([65, 10, 66] : List Nat) :=
  (get_until_chunk_clean 62 true [65, 13, 66, 62] [65, 10, 66] []).1 (by decide)

end ObdTwo
